import Mathlib

/-!
Shallow embedding of the tuple lifecycle engine of substra-chaincode
(src/chaincode/tuple_aggregate.go), together with theorems settling the
frozen claims about it.

The ledger and the collaborators that are not part of the source file
(asset getters, compute-plan record operations, the readiness check, the
transition validator, index primitives, children propagation) are modelled
from the specification; each such definition carries a doc comment that
starts with "Modelled from the spec:". Everything else is translated
directly from the Go source. Error paths are modelled with Except; the
ledger is passed as explicit state, and functions that mutate the ledger
return the state valid at return time together with the result, so that a
write performed before a failing step stays visible, exactly as a Go
method leaves its ledger writes behind when it returns an error.
-/

/-- Error taxonomy of the chaincode errors package (BadRequest, Forbidden,
Conflict, NotFound, Internal); generic covers raw Go errors such as the
one returned by strconv.Atoi. -/
inductive ErrKind where
  | badRequest
  | forbidden
  | conflict
  | notFound
  | internal
  | generic
deriving Repr, DecidableEq

/-- Error value: a kind from the taxonomy plus the formatted message. -/
structure ChainErr where
  kind : ErrKind
  msg : String
deriving Repr, DecidableEq

/-- Status constant from the source. -/
def StatusWaiting : String := "waiting"

/-- Status constant from the source. -/
def StatusTodo : String := "todo"

/-- Status constant from the source. -/
def StatusDoing : String := "doing"

/-- Status constant from the source. -/
def StatusDone : String := "done"

/-- Status constant from the source. -/
def StatusFailed : String := "failed"

/-- Status constant from the source. -/
def StatusAborted : String := "aborted"

/-- Asset type discriminant, as in the source (only the constructors the
embedded functions inspect, plus a testtuple constructor so that the
default branch of the parent-kind switch is reachable). -/
inductive AssetType where
  | TraintupleType
  | CompositeTraintupleType
  | AggregatetupleType
  | TesttupleType
deriving Repr, DecidableEq

/-- Printable name of an asset type, used in error messages. -/
def assetTypeName : AssetType → String
  | AssetType.TraintupleType => "traintuple"
  | AssetType.CompositeTraintupleType => "compositeTraintuple"
  | AssetType.AggregatetupleType => "aggregatetuple"
  | AssetType.TesttupleType => "testtuple"

/-- Modelled from the spec: an access-control record attached to a model
artifact (the Permissions type is not part of the source file). Public
grants access to everyone; otherwise only the listed nodes have access. -/
structure Permissions where
  Public : Bool
  AuthorizedIDs : List String
deriving Repr, DecidableEq

/-- Modelled from the spec: the maximally-open permission baseline. -/
def OpenPermissions : Permissions :=
  { Public := true, AuthorizedIDs := [] }

/-- Zero value of the Permissions record, what the Go expression
Permissions\x7b\x7d denotes. -/
def emptyPermissions : Permissions :=
  { Public := false, AuthorizedIDs := [] }

/-- Modelled from the spec: MergePermissions combines two permission
records by taking the union of their grant conditions, so the merged
record grants access only where both operands do; the open baseline is the
identity of the merge. -/
def MergePermissions (a b : Permissions) : Permissions :=
  { Public := a.Public && b.Public,
    AuthorizedIDs :=
      if a.Public then b.AuthorizedIDs
      else if b.Public then a.AuthorizedIDs
      else a.AuthorizedIDs.filter (fun x => b.AuthorizedIDs.contains x) }

/-- Modelled from the spec: NewPermissions builds a permission record from
the requested baseline (the db argument is kept for signature fidelity;
the model never fails). -/
def NewPermissions (_db : Unit) (p : Permissions) : Except ChainErr Permissions :=
  Except.ok p

/-- Aggregate tuple record, translated from the Aggregatetuple struct of
the source (Metadata and OutModel are omitted: no embedded function reads
them). -/
structure Aggregatetuple where
  Key : String
  AssetType : AssetType
  Creator : String
  Worker : String
  AlgoKey : String
  InModelKeys : List String
  Permissions : Permissions
  Status : String
  ComputePlanKey : String
  Rank : Int
  Log : String
  Tag : String
deriving Repr, DecidableEq

/-- Parent record of train kind: the fields SetFromParents reads. -/
structure Traintuple where
  Status : String
  Permissions : Permissions
deriving Repr, DecidableEq

/-- Trunk out-model descriptor of a composite traintuple: the field
SetFromParents reads. -/
structure OutModelTrunk where
  Permissions : Permissions
deriving Repr, DecidableEq

/-- Parent record of composite kind: the fields SetFromParents reads. -/
structure CompositeTraintuple where
  Status : String
  OutTrunkModel : OutModelTrunk
deriving Repr, DecidableEq

/-- Compute plan record: the membership list the coordinator mutates
(kind, tuple key, status, worker per member). -/
structure ComputePlan where
  tuples : List (AssetType × String × String × String)
deriving Repr, DecidableEq

/-- Creation request for an aggregate tuple, from the source input struct
(Metadata omitted). -/
structure InputAggregatetuple where
  Key : String
  AlgoKey : String
  InModels : List String
  ComputePlanKey : String
  Rank : String
  Tag : String
  Worker : String
deriving Repr, DecidableEq

/-- Request body of the fail action, from the source input struct. -/
structure InputLogFailTrain where
  Key : String
  Log : String
deriving Repr, DecidableEq

/-- Modelled from the spec: the ledger snapshot seen by one invocation.
Asset stores are association lists; indexUpdates, planStateUpdates,
events, trainPropagations and testPropagations record the externally
visible effects the claims talk about. txCreator is the identity of the
request issuer. -/
structure LedgerDB where
  txCreator : String
  assetTypes : List (String × AssetType)
  traintuples : List (String × Traintuple)
  compositeTraintuples : List (String × CompositeTraintuple)
  aggregatetuples : List (String × Aggregatetuple)
  genericStatuses : List (String × String)
  computePlans : List (String × ComputePlan)
  indexEntries : List (String × List String)
  indexUpdates : List (String × List String × List String)
  planStateUpdates : List (String × String × String × String)
  events : List String
  trainPropagations : List (String × String)
  testPropagations : List (String × String)
deriving Repr, DecidableEq

/-- Association-list write: drop previous bindings of the key, append the
new one. -/
def assocPut {α : Type} (l : List (String × α)) (key : String) (v : α) :
    List (String × α) :=
  l.filter (fun p => p.1 != key) ++ [(key, v)]

/-- Modelled from the spec: ledger getter resolving the dynamic kind of an
asset; a missing key is a not-found error. -/
def GetAssetType (db : LedgerDB) (key : String) : Except ChainErr AssetType :=
  match db.assetTypes.lookup key with
  | some t => Except.ok t
  | none => Except.error { kind := ErrKind.notFound, msg := "asset not found " ++ key }

/-- Modelled from the spec: ledger getter for a train-kind parent record;
a missing key is a not-found error. -/
def GetTraintuple (db : LedgerDB) (key : String) : Except ChainErr Traintuple :=
  match db.traintuples.lookup key with
  | some t => Except.ok t
  | none => Except.error { kind := ErrKind.notFound, msg := "traintuple not found " ++ key }

/-- Modelled from the spec: ledger getter for a composite-kind parent
record; a missing key is a not-found error. -/
def GetCompositeTraintuple (db : LedgerDB) (key : String) :
    Except ChainErr CompositeTraintuple :=
  match db.compositeTraintuples.lookup key with
  | some t => Except.ok t
  | none => Except.error { kind := ErrKind.notFound, msg := "compositeTraintuple not found " ++ key }

/-- Modelled from the spec: ledger getter for an aggregate tuple; a
missing key is a not-found error. -/
def GetAggregatetuple (db : LedgerDB) (key : String) :
    Except ChainErr Aggregatetuple :=
  match db.aggregatetuples.lookup key with
  | some t => Except.ok t
  | none => Except.error { kind := ErrKind.notFound, msg := "aggregatetuple not found " ++ key }

/-- Modelled from the spec: ledger getter for a compute plan; reading a
referenced plan that does not exist is surfaced as a not-found error. -/
def GetComputePlan (db : LedgerDB) (key : String) : Except ChainErr ComputePlan :=
  match db.computePlans.lookup key with
  | some cp => Except.ok cp
  | none => Except.error { kind := ErrKind.notFound, msg := "computePlan not found " ++ key }

/-- Modelled from the spec: primary-key write of an aggregate tuple. -/
def putAggregatetuple (db : LedgerDB) (key : String) (t : Aggregatetuple) : LedgerDB :=
  { db with aggregatetuples := assocPut db.aggregatetuples key t }

/-- Modelled from the spec: composite-index update; replaces the old row
by the new one and records the operation. -/
def UpdateIndex (db : LedgerDB) (indexName : String)
    (oldAttributes newAttributes : List String) : LedgerDB :=
  { db with
    indexEntries :=
      db.indexEntries.filter (fun e => !(e.1 == indexName && e.2 == oldAttributes))
        ++ [(indexName, newAttributes)],
    indexUpdates := db.indexUpdates ++ [(indexName, oldAttributes, newAttributes)] }

/-- Modelled from the spec: partial composite-key query; returns, for each
row of the index whose attribute list extends the given attributes, the
last attribute (the stored tuple key). -/
def GetIndexKeys (db : LedgerDB) (indexName : String) (attributes : List String) :
    Except ChainErr (List String) :=
  Except.ok (db.indexEntries.filterMap (fun e =>
    if e.1 == indexName && attributes.isPrefixOf e.2 then e.2.getLast? else none))

/-- Modelled from the spec: event emission for a tuple key. -/
def AddTupleEvent (db : LedgerDB) (key : String) : LedgerDB :=
  { db with events := db.events ++ [key] }

/-- Modelled from the spec: ComputePlan.AddTuple registers the tuple as a
plan member with its kind, key, status and worker. -/
def AddTuple (plan : ComputePlan) (kind : AssetType) (key status worker : String) :
    ComputePlan :=
  { plan with tuples := plan.tuples ++ [(kind, key, status, worker)] }

/-- Modelled from the spec: ComputePlan.Save persists the plan record
under the given key. -/
def SaveComputePlan (db : LedgerDB) (key : String) (plan : ComputePlan) : LedgerDB :=
  { db with computePlans := assocPut db.computePlans key plan }

/-- Modelled from the spec: UpdateComputePlanState updates the aggregated
status of the owning plan when a member changes status; a tuple that
belongs to no plan (empty key) is a no-op. Recorded as an effect. -/
def UpdateComputePlanState (db : LedgerDB)
    (computePlanKey newStatus tupleKey worker : String) : Except ChainErr LedgerDB :=
  if computePlanKey = "" then Except.ok db
  else Except.ok { db with
    planStateUpdates := db.planStateUpdates ++ [(computePlanKey, newStatus, tupleKey, worker)] }

/-- Modelled from the spec: validateTupleOwner requires the request issuer
to be the assigned worker, otherwise an authorization error. -/
def validateTupleOwner (db : LedgerDB) (worker : String) : Except ChainErr Unit :=
  if db.txCreator = worker then Except.ok ()
  else Except.error { kind := ErrKind.forbidden, msg := "not authorized, expected worker " ++ worker }

/-- Modelled from the spec: checkUpdateTuple validates a status
transition. Legal moves are the chain waiting to todo to doing to done,
a move to failed, and a move to aborted; anything else is rejected. The
worker argument is kept for signature fidelity. -/
def checkUpdateTuple (_db : LedgerDB) (_worker : String)
    (oldStatus newStatus : String) : Except ChainErr Unit :=
  if newStatus = StatusAborted then Except.ok ()
  else if newStatus = StatusFailed then Except.ok ()
  else if (oldStatus = StatusWaiting ∧ newStatus = StatusTodo)
      ∨ (oldStatus = StatusTodo ∧ newStatus = StatusDoing)
      ∨ (oldStatus = StatusDoing ∧ newStatus = StatusDone) then Except.ok ()
  else Except.error
    { kind := ErrKind.badRequest,
      msg := "cannot change status from " ++ oldStatus ++ " to " ++ newStatus }

/-- Digit-sequence parser used by Atoi: consumes decimal digits into an
accumulator and fails on any non-digit character. -/
def parseDigits : List Char → Nat → Option Nat
  | [], acc => some acc
  | c :: rest, acc =>
    if c.isDigit then parseDigits rest (acc * 10 + (c.toNat - 48)) else none

/-- Modelled from the spec: strconv.Atoi; parses an optional sign followed
by at least one digit, anything else is an error (returned raw, not
wrapped in the chaincode taxonomy, as in the source). -/
def Atoi (s : String) : Except ChainErr Int :=
  let bad : Except ChainErr Int := Except.error
    { kind := ErrKind.generic,
      msg := "strconv.Atoi: parsing " ++ s ++ ": invalid syntax" }
  match s.data with
  | [] => bad
  | '+' :: rest =>
    match rest, parseDigits rest 0 with
    | _ :: _, some n => Except.ok (Int.ofNat n)
    | _, _ => bad
  | '-' :: rest =>
    match rest, parseDigits rest 0 with
    | _ :: _, some n => Except.ok (-(Int.ofNat n))
    | _, _ => bad
  | l =>
    match parseDigits l 0 with
    | some n => Except.ok (Int.ofNat n)
    | none => bad

/-- Modelled from the spec: determineStatusFromInModels derives the status
of a new tuple from the list of accumulated parent statuses with the
precedence failed, then todo when all parents are done, then waiting. -/
def determineStatusFromInModels (statuses : List String) : String :=
  if StatusFailed ∈ statuses then StatusFailed
  else if ∀ s ∈ statuses, s = StatusDone then StatusTodo
  else StatusWaiting

/-- Modelled from the spec: IsReady holds when every entry of the given
in-model key list has reached the done status; the just-completed parent
key counts as done without a ledger read. A key that resolves to no tuple
is a not-found error. -/
def IsReady (db : LedgerDB) : List String → String → Except ChainErr Bool
  | [], _ => Except.ok true
  | key :: rest, newDoneTupleKey =>
    if key = newDoneTupleKey then IsReady db rest newDoneTupleKey
    else match db.genericStatuses.lookup key with
      | none => Except.error { kind := ErrKind.notFound, msg := "tuple not found " ++ key }
      | some st =>
        if st = StatusDone then IsReady db rest newDoneTupleKey else Except.ok false

/-- Loop body of SetFromParents (lines 72 to 111 of the source). For each
parent key the dynamic kind is resolved; an unresolvable kind is an
internal error and an unsupported kind is an internal error. Inside each
kind branch the Go source declares a fresh err with a short variable
declaration, shadowing the outer err, so the error of the kind-specific
getter never reaches the check after the switch: on a failed fetch the
parent status is not accumulated, the permissions stay the zero value,
and the loop continues, still appending the key and merging the zero
permissions. The embedding reproduces that shadowing faithfully. -/
def setFromParentsLoop (db : LedgerDB) (parentStatuses inModelKeys : List String)
    (permissions : Permissions) :
    List String → Except ChainErr (List String × List String × Permissions)
  | [] => Except.ok (parentStatuses, inModelKeys, permissions)
  | parentTraintupleKey :: rest =>
    match GetAssetType db parentTraintupleKey with
    | Except.error e => Except.error
        { kind := ErrKind.internal,
          msg := "could not retrieve traintuple type with key " ++ parentTraintupleKey
            ++ " - " ++ e.msg }
    | Except.ok parentType =>
      match (match parentType with
        | AssetType.CompositeTraintupleType =>
          (match GetCompositeTraintuple db parentTraintupleKey with
           | Except.ok p =>
             Except.ok (p.OutTrunkModel.Permissions, parentStatuses ++ [p.Status])
           | Except.error _ => Except.ok (emptyPermissions, parentStatuses))
        | AssetType.TraintupleType =>
          (match GetTraintuple db parentTraintupleKey with
           | Except.ok p => Except.ok (p.Permissions, parentStatuses ++ [p.Status])
           | Except.error _ => Except.ok (emptyPermissions, parentStatuses))
        | AssetType.AggregatetupleType =>
          (match GetAggregatetuple db parentTraintupleKey with
           | Except.ok p => Except.ok (p.Permissions, parentStatuses ++ [p.Status])
           | Except.error _ => Except.ok (emptyPermissions, parentStatuses))
        | other => Except.error
            { kind := ErrKind.internal,
              msg := "aggregate.SetFromParents: Unsupported parent type "
                ++ assetTypeName other } :
        Except ChainErr (Permissions × List String)) with
      | Except.error e => Except.error e
      | Except.ok (parentPermissions, newStatuses) =>
        setFromParentsLoop db newStatuses (inModelKeys ++ [parentTraintupleKey])
          (MergePermissions permissions parentPermissions) rest

/-- SetFromParents, translated from lines 64 to 116 of the source: runs
the parent loop starting from the preset in-model keys and the open
permission baseline, then sets Status, InModelKeys and Permissions. -/
def SetFromParents (db : LedgerDB) (tuple : Aggregatetuple) (inModels : List String) :
    Except ChainErr Aggregatetuple :=
  match NewPermissions () OpenPermissions with
  | Except.error e => Except.error
      { kind := ErrKind.badRequest,
        msg := "could not generate open permissions - " ++ e.msg }
  | Except.ok p0 =>
    match setFromParentsLoop db [] tuple.InModelKeys p0 inModels with
    | Except.error e => Except.error e
    | Except.ok (parentStatuses, inModelKeys, permissions) =>
      Except.ok { tuple with
        Status := determineStatusFromInModels parentStatuses,
        InModelKeys := inModelKeys,
        Permissions := permissions }

/-- AddToComputePlan, translated from lines 124 to 165 of the source.
The returned ledger is the state at return time, so writes performed
before a failing step stay visible. -/
def AddToComputePlan (db : LedgerDB) (tuple : Aggregatetuple)
    (inp : InputAggregatetuple) (traintupleKey : String)
    (checkComputePlanAvailability : Bool) :
    LedgerDB × Except ChainErr Aggregatetuple :=
  if inp.Rank = "" then
    if inp.ComputePlanKey ≠ "" then
      (db, Except.error
        { kind := ErrKind.badRequest,
          msg := "invalid inputs, a ComputePlan should have a rank" })
    else (db, Except.ok tuple)
  else
    match Atoi inp.Rank with
    | Except.error e => (db, Except.error e)
    | Except.ok rank =>
      let tuple := { tuple with Rank := rank, ComputePlanKey := inp.ComputePlanKey }
      match GetComputePlan db inp.ComputePlanKey with
      | Except.error e => (db, Except.error e)
      | Except.ok computePlan =>
        let computePlan :=
          AddTuple computePlan AssetType.AggregatetupleType traintupleKey
            tuple.Status tuple.Worker
        let db := SaveComputePlan db tuple.ComputePlanKey computePlan
        if !checkComputePlanAvailability then (db, Except.ok tuple)
        else
          match GetIndexKeys db "computePlan~computeplankey~worker~rank~key"
              ["computePlan", inp.ComputePlanKey, tuple.Worker, inp.Rank] with
          | Except.error e => (db, Except.error e)
          | Except.ok ttKeys =>
            if ttKeys.length > 0 then
              (db, Except.error
                { kind := ErrKind.badRequest,
                  msg := "ComputePlanKey " ++ inp.ComputePlanKey ++ " with worker "
                    ++ tuple.Worker ++ " rank " ++ toString tuple.Rank
                    ++ " already exists" })
            else (db, Except.ok tuple)

/-- validateNewStatus, translated from lines 539 to 545 of the source. -/
def validateNewStatus (db : LedgerDB) (tuple : Aggregatetuple) (status : String) :
    Except ChainErr Unit :=
  checkUpdateTuple db tuple.Worker tuple.Status status

/-- commitStatusUpdate, translated from lines 504 to 536 of the source:
no-op when the status is unchanged, no-op when aborting a tuple that
already left waiting, otherwise validate, write the record, move the
worker-status index row, and update the owning compute-plan state. -/
def commitStatusUpdate (db : LedgerDB) (aggregatetupleKey : String)
    (tuple : Aggregatetuple) (newStatus : String) :
    LedgerDB × Except ChainErr Aggregatetuple :=
  if tuple.Status = newStatus then (db, Except.ok tuple)
  else if StatusAborted = newStatus ∧ tuple.Status ≠ StatusWaiting then
    (db, Except.ok tuple)
  else
    match validateNewStatus db tuple newStatus with
    | Except.error e => (db, Except.error
        { kind := ErrKind.internal,
          msg := "update aggregatetuple " ++ aggregatetupleKey ++ " failed: " ++ e.msg })
    | Except.ok _ =>
      let oldStatus := tuple.Status
      let tuple := { tuple with Status := newStatus }
      let db := putAggregatetuple db aggregatetupleKey tuple
      let db := UpdateIndex db "aggregatetuple~worker~status~key"
        ["aggregatetuple", tuple.Worker, oldStatus, aggregatetupleKey]
        ["aggregatetuple", tuple.Worker, tuple.Status, aggregatetupleKey]
      match UpdateComputePlanState db tuple.ComputePlanKey newStatus
          aggregatetupleKey tuple.Worker with
      | Except.error e => (db, Except.error e)
      | Except.ok db2 => (db2, Except.ok tuple)

/-- UpdateAggregatetupleChild, translated from lines 447 to 484 of the
source: reload the child, derive the new status from the parent status
(failed propagates failed, done propagates todo when the child is ready),
commit when a status was determined and emit a tuple event. On an error
after a partial computation the Go named return value carries the stale
child status; the embedding keeps only the error. -/
def UpdateAggregatetupleChild (db : LedgerDB)
    (parentAggregatetupleKey childAggregatetupleKey aggregatetupleStatus : String) :
    LedgerDB × Except ChainErr String :=
  match GetAggregatetuple db childAggregatetupleKey with
  | Except.error e => (db, Except.error e)
  | Except.ok childAggregatetuple =>
    match (if aggregatetupleStatus = StatusFailed then Except.ok StatusFailed
      else if aggregatetupleStatus = StatusDone then
        match IsReady db childAggregatetuple.InModelKeys parentAggregatetupleKey with
        | Except.error e => Except.error e
        | Except.ok true => Except.ok StatusTodo
        | Except.ok false => Except.ok ""
      else (Except.ok "" : Except ChainErr String)) with
    | Except.error e => (db, Except.error e)
    | Except.ok newStatus =>
      if newStatus = "" then (db, Except.ok childAggregatetuple.Status)
      else
        match commitStatusUpdate db childAggregatetupleKey childAggregatetuple newStatus with
        | (db2, Except.error e) => (db2, Except.error e)
        | (db2, Except.ok t) => (AddTupleEvent db2 childAggregatetupleKey, Except.ok t.Status)

/-- Modelled from the spec: UpdateTesttupleChildren propagates a new
parent status to the dependent test-kind children; the propagation is
recorded as an effect on the ledger model. -/
def UpdateTesttupleChildren (db : LedgerDB) (key status : String) : LedgerDB :=
  { db with testPropagations := db.testPropagations ++ [(key, status)] }

/-- Modelled from the spec: UpdateTraintupleChildren propagates a new
parent status to the dependent train-kind children; the propagation is
recorded as an effect on the ledger model. The third argument mirrors the
todo-key list of the source signature. -/
def UpdateTraintupleChildren (db : LedgerDB) (key status : String)
    (_todoKeys : List String) : LedgerDB :=
  { db with trainPropagations := db.trainPropagations ++ [(key, status)] }

/-- logFailAggregate, translated from lines 288 to 324 of the source
(argument deserialization elided, the request struct is taken directly):
load the tuple, append the log, check ownership, commit the failed
status, and propagate to test and train children only when the tuple is
not part of a compute plan. The output projection Fill copies the
committed status, so the status forwarded to the children updaters equals
the committed tuple status in both calls. -/
def logFailAggregate (db : LedgerDB) (inp : InputLogFailTrain) :
    LedgerDB × Except ChainErr Aggregatetuple :=
  match GetAggregatetuple db inp.Key with
  | Except.error e => (db, Except.error e)
  | Except.ok aggregatetuple =>
    let aggregatetuple := { aggregatetuple with Log := aggregatetuple.Log ++ inp.Log }
    match validateTupleOwner db aggregatetuple.Worker with
    | Except.error e => (db, Except.error e)
    | Except.ok _ =>
      match commitStatusUpdate db inp.Key aggregatetuple StatusFailed with
      | (db2, Except.error e) => (db2, Except.error e)
      | (db2, Except.ok t) =>
        if t.ComputePlanKey ≠ "" then (db2, Except.ok t)
        else
          let db3 := UpdateTesttupleChildren db2 inp.Key t.Status
          let db4 := UpdateTraintupleChildren db3 inp.Key t.Status []
          (db4, Except.ok t)

/-- Empty ledger snapshot, used by the concrete witnesses. -/
def dbEmpty : LedgerDB :=
  { txCreator := ""
    assetTypes := []
    traintuples := []
    compositeTraintuples := []
    aggregatetuples := []
    genericStatuses := []
    computePlans := []
    indexEntries := []
    indexUpdates := []
    planStateUpdates := []
    events := []
    trainPropagations := []
    testPropagations := [] }

/-- Default aggregate tuple record, used by the concrete witnesses. -/
def tuple0 : Aggregatetuple :=
  { Key := ""
    AssetType := AssetType.AggregatetupleType
    Creator := ""
    Worker := ""
    AlgoKey := ""
    InModelKeys := []
    Permissions := OpenPermissions
    Status := ""
    ComputePlanKey := ""
    Rank := 0
    Log := ""
    Tag := "" }

/-- Case analysis for a successful commitStatusUpdate: either one of the
two no-op guards fired (same status, or aborting a tuple that left
waiting) and nothing changed, or the tuple was written with the new
status. -/
theorem commitStatusUpdate_ok_cases {db db1 : LedgerDB} {k : String}
    {t t1 : Aggregatetuple} {s : String}
    (h : commitStatusUpdate db k t s = (db1, Except.ok t1)) :
    (t1 = t ∧ db1 = db ∧ (t.Status = s ∨ (StatusAborted = s ∧ t.Status ≠ StatusWaiting)))
      ∨ t1 = { t with Status := s } := by
  unfold commitStatusUpdate at h
  split at h
  · rename_i hst
    simp only [Prod.mk.injEq, Except.ok.injEq] at h
    exact Or.inl ⟨h.2.symm, h.1.symm, Or.inl hst⟩
  · split at h
    · rename_i hab
      simp only [Prod.mk.injEq, Except.ok.injEq] at h
      exact Or.inl ⟨h.2.symm, h.1.symm, Or.inr hab⟩
    · split at h
      · simp at h
      · dsimp only at h
        split at h
        · simp at h
        · simp only [Prod.mk.injEq, Except.ok.injEq] at h
          exact Or.inr h.2.symm

/-- The ledger state produced by commitStatusUpdate never touches the
children-propagation effect logs. -/
theorem commitStatusUpdate_preserves_propagations {db db1 : LedgerDB} {k : String}
    {t : Aggregatetuple} {s : String} {r : Except ChainErr Aggregatetuple}
    (h : commitStatusUpdate db k t s = (db1, r)) :
    db1.testPropagations = db.testPropagations
      ∧ db1.trainPropagations = db.trainPropagations := by
  unfold commitStatusUpdate at h
  split at h
  · simp only [Prod.mk.injEq] at h
    rw [← h.1]
    exact ⟨rfl, rfl⟩
  · split at h
    · simp only [Prod.mk.injEq] at h
      rw [← h.1]
      exact ⟨rfl, rfl⟩
    · split at h
      · simp only [Prod.mk.injEq] at h
        rw [← h.1]
        exact ⟨rfl, rfl⟩
      · dsimp only at h
        split at h
        · rename_i e hstate
          unfold UpdateComputePlanState at hstate
          split at hstate <;> simp at hstate
        · rename_i db2 hstate
          simp only [Prod.mk.injEq] at h
          rw [← h.1]
          unfold UpdateComputePlanState at hstate
          split at hstate <;>
            simp only [Except.ok.injEq] at hstate <;>
            rw [← hstate] <;>
            exact ⟨rfl, rfl⟩

/-- A successful commitStatusUpdate towards a status other than aborted
leaves the tuple carrying exactly that status. -/
theorem commitStatusUpdate_ok_status {db db1 : LedgerDB} {k : String}
    {t t1 : Aggregatetuple} {s : String} (hne : s ≠ StatusAborted)
    (h : commitStatusUpdate db k t s = (db1, Except.ok t1)) :
    t1.Status = s := by
  rcases commitStatusUpdate_ok_cases h with ⟨rfl, _, hcase⟩ | rfl
  · rcases hcase with hst | ⟨hab, _⟩
    · exact hst
    · exact absurd hab.symm hne
  · rfl

/-- A successful commitStatusUpdate changes at most the Status field of
the tuple. -/
theorem commitStatusUpdate_ok_fields {db db1 : LedgerDB} {k : String}
    {t t1 : Aggregatetuple} {s : String}
    (h : commitStatusUpdate db k t s = (db1, Except.ok t1)) :
    t1.Worker = t.Worker ∧ t1.ComputePlanKey = t.ComputePlanKey ∧ t1.Log = t.Log := by
  rcases commitStatusUpdate_ok_cases h with ⟨rfl, _, _⟩ | rfl
  · exact ⟨rfl, rfl, rfl⟩
  · exact ⟨rfl, rfl, rfl⟩

/-- Claim C7: commitStatusUpdate is idempotent. After a successful call
targeting status s, calling it again on the resulting tuple with the same
target s returns the tuple unchanged with no error and performs no
ledger write, no index update and no compute-plan state update: the
ledger state is returned exactly as it was. -/
theorem commitStatusUpdate_idempotent (db db1 : LedgerDB) (k : String)
    (t t1 : Aggregatetuple) (s : String)
    (h : commitStatusUpdate db k t s = (db1, Except.ok t1)) :
    commitStatusUpdate db1 k t1 s = (db1, Except.ok t1) := by
  rcases commitStatusUpdate_ok_cases h with ⟨rfl, rfl, _⟩ | rfl
  · exact h
  · unfold commitStatusUpdate
    rw [if_pos rfl]

/-- Witness for claim C7 at a concrete input: a todo tuple committed to
doing, then committed to doing again. -/
theorem commitStatusUpdate_idempotent_witness :
    commitStatusUpdate
      (commitStatusUpdate dbEmpty "k" { tuple0 with Status := StatusTodo } StatusDoing).1
      "k" { tuple0 with Status := StatusDoing } StatusDoing
    = ((commitStatusUpdate dbEmpty "k" { tuple0 with Status := StatusTodo } StatusDoing).1,
       Except.ok { tuple0 with Status := StatusDoing }) :=
  commitStatusUpdate_idempotent dbEmpty
    (commitStatusUpdate dbEmpty "k" { tuple0 with Status := StatusTodo } StatusDoing).1
    "k" { tuple0 with Status := StatusTodo } { tuple0 with Status := StatusDoing }
    StatusDoing rfl

/-- Claim C8: aborting never downgrades a tuple that already left
waiting. When the current status is not waiting, commitStatusUpdate with
target aborted returns the tuple unchanged, no error, and the ledger
state exactly as given. -/
theorem commitStatusUpdate_abort_noop (db : LedgerDB) (k : String)
    (t : Aggregatetuple) (h : t.Status ≠ StatusWaiting) :
    commitStatusUpdate db k t StatusAborted = (db, Except.ok t) := by
  unfold commitStatusUpdate
  by_cases h1 : t.Status = StatusAborted
  · rw [if_pos h1]
  · rw [if_neg h1, if_pos ⟨rfl, h⟩]

/-- Witness for claim C8 at a concrete input: aborting a done tuple is a
no-op. -/
theorem commitStatusUpdate_abort_noop_witness :
    commitStatusUpdate dbEmpty "k" { tuple0 with Status := StatusDone } StatusAborted
      = (dbEmpty, Except.ok { tuple0 with Status := StatusDone }) :=
  commitStatusUpdate_abort_noop dbEmpty "k" { tuple0 with Status := StatusDone }
    (by decide)

/-- Claim C9: a creation request with an empty parent list sets the
status to todo, the permissions to the maximally-open baseline, and
appends no parent to InModelKeys. -/
theorem setFromParents_no_parents (db : LedgerDB) (tuple : Aggregatetuple) :
    SetFromParents db tuple [] =
      Except.ok { tuple with
        Status := StatusTodo,
        InModelKeys := tuple.InModelKeys,
        Permissions := OpenPermissions } := by
  rfl

/-- Ledger used by the concrete evaluation of claim C4: the asset-type
index resolves key p1 to the train kind, but no train record exists, so
the kind-specific getter fails. -/
def dbC4 : LedgerDB := { dbEmpty with assetTypes := [("p1", AssetType.TraintupleType)] }

/-- Claim C4 evaluation: when the kind-specific parent lookup fails,
SetFromParents does not return an internal error; it silently skips the
parent. No status is accumulated, so the new status is derived from an
empty list and becomes todo, the unresolvable key is still appended to
InModelKeys, and the zero-value permissions are merged in, closing the
permission set. In the Go source this happens because the short variable
declarations inside the switch cases shadow the outer err, leaving the
check after the switch to read the always-nil outer err. -/
theorem setFromParents_silently_skips_unfetchable_parent :
    SetFromParents dbC4 tuple0 ["p1"] =
      Except.ok { tuple0 with
        Status := StatusTodo,
        InModelKeys := ["p1"],
        Permissions := emptyPermissions } := by
  rfl

/-- Claim C1: the status SetFromParents derives from the accumulated
parent statuses follows the precedence of the spec: failed as soon as one
accumulated parent status is failed, otherwise todo when every
accumulated parent status is done, otherwise waiting. -/
theorem setFromParents_status_precedence
    (db : LedgerDB) (tuple : Aggregatetuple) (inModels statuses keys : List String)
    (perms : Permissions)
    (hloop : setFromParentsLoop db [] tuple.InModelKeys OpenPermissions inModels
      = Except.ok (statuses, keys, perms)) :
    ∃ t, SetFromParents db tuple inModels = Except.ok t
      ∧ (StatusFailed ∈ statuses → t.Status = StatusFailed)
      ∧ (StatusFailed ∉ statuses → (∀ s ∈ statuses, s = StatusDone) →
          t.Status = StatusTodo)
      ∧ (StatusFailed ∉ statuses → ¬(∀ s ∈ statuses, s = StatusDone) →
          t.Status = StatusWaiting) := by
  refine ⟨{ tuple with
      Status := determineStatusFromInModels statuses,
      InModelKeys := keys,
      Permissions := perms }, ?_, ?_, ?_, ?_⟩
  · simp only [SetFromParents, NewPermissions, hloop]
  · intro h
    show determineStatusFromInModels statuses = StatusFailed
    rw [determineStatusFromInModels, if_pos h]
  · intro h1 h2
    show determineStatusFromInModels statuses = StatusTodo
    rw [determineStatusFromInModels, if_neg h1, if_pos h2]
  · intro h1 h2
    show determineStatusFromInModels statuses = StatusWaiting
    rw [determineStatusFromInModels, if_neg h1, if_neg h2]

/-- Ledger used by the witness of claim C1: one train-kind parent with
status done and open permissions. -/
def dbC1w : LedgerDB := { dbEmpty with
  assetTypes := [("a", AssetType.TraintupleType)]
  traintuples := [("a", { Status := StatusDone, Permissions := OpenPermissions })] }

/-- Witness for claim C1 at a concrete input: a single done parent, whose
accumulated status list is just done. -/
theorem setFromParents_status_precedence_witness :
    ∃ t, SetFromParents dbC1w tuple0 ["a"] = Except.ok t
      ∧ (StatusFailed ∈ [StatusDone] → t.Status = StatusFailed)
      ∧ (StatusFailed ∉ [StatusDone] → (∀ s ∈ [StatusDone], s = StatusDone) →
          t.Status = StatusTodo)
      ∧ (StatusFailed ∉ [StatusDone] → ¬(∀ s ∈ [StatusDone], s = StatusDone) →
          t.Status = StatusWaiting) :=
  setFromParents_status_precedence dbC1w tuple0 ["a"] [StatusDone] ["a"]
    OpenPermissions rfl

/-- Claim C6 as amended: the guard of AddToComputePlan errors on a
compute-plan key supplied without a rank (bad request), and is a no-op,
returning the tuple and the ledger unchanged, when neither a rank nor a
compute-plan key is supplied. -/
theorem addToComputePlan_guard_amended (db : LedgerDB) (tuple : Aggregatetuple)
    (inp : InputAggregatetuple) (traintupleKey : String) (check : Bool)
    (h : inp.Rank = "") :
    (inp.ComputePlanKey ≠ "" → AddToComputePlan db tuple inp traintupleKey check
        = (db, Except.error
            { kind := ErrKind.badRequest,
              msg := "invalid inputs, a ComputePlan should have a rank" }))
    ∧ (inp.ComputePlanKey = "" → AddToComputePlan db tuple inp traintupleKey check
        = (db, Except.ok tuple)) := by
  constructor
  · intro h2
    rw [AddToComputePlan, if_pos h, if_pos h2]
  · intro h2
    rw [AddToComputePlan, if_pos h, if_neg (by simp [h2])]

/-- Creation request used by the witness of claim C6: a compute-plan key
with an empty rank. -/
def inpC6w : InputAggregatetuple :=
  { Key := "", AlgoKey := "", InModels := [], ComputePlanKey := "cp", Rank := "",
    Tag := "", Worker := "" }

/-- Witness for claim C6 at a concrete input: a plan key without a rank
is rejected as a bad request. -/
theorem addToComputePlan_guard_amended_witness :
    AddToComputePlan dbEmpty tuple0 inpC6w "k" true
      = (dbEmpty, Except.error
          { kind := ErrKind.badRequest,
            msg := "invalid inputs, a ComputePlan should have a rank" }) :=
  (addToComputePlan_guard_amended dbEmpty tuple0 inpC6w "k" true rfl).1 (by decide)

/-- Creation request used by the counterexample of claim C6: a rank
supplied without a compute-plan key. -/
def inpC6cex : InputAggregatetuple :=
  { Key := "", AlgoKey := "", InModels := [], ComputePlanKey := "", Rank := "0",
    Tag := "", Worker := "" }

/-- Counterexample to claim C6 as stated: a creation request supplying a
rank but no compute-plan key does not produce a bad-request error from
AddToComputePlan; the call proceeds past the guard and fails on the
compute-plan load with a not-found error. -/
theorem addToComputePlan_rank_without_plan_counterexample :
    (AddToComputePlan dbEmpty tuple0 inpC6cex "k" true).2
      = Except.error { kind := ErrKind.notFound, msg := "computePlan not found " }
    ∧ ErrKind.notFound ≠ ErrKind.badRequest :=
  ⟨rfl, by decide⟩

/-- Empty compute plan record used by the concrete plan scenarios. -/
def planC5 : ComputePlan := { tuples := [] }

/-- Ledger used by the claim C5 scenarios: plan cp exists and the
uniqueness index already holds an entry for plan cp, worker w, rank 1. -/
def dbC5 : LedgerDB := { dbEmpty with
  computePlans := [("cp", planC5)]
  indexEntries := [("computePlan~computeplankey~worker~rank~key",
    ["computePlan", "cp", "w", "1", "prev"])] }

/-- Tuple used by the claim C5 scenarios. -/
def tupleC5 : Aggregatetuple := { tuple0 with Worker := "w", Status := StatusTodo }

/-- Creation request used by the claim C5 scenarios. -/
def inpC5 : InputAggregatetuple :=
  { Key := "", AlgoKey := "", InModels := [], ComputePlanKey := "cp", Rank := "1",
    Tag := "", Worker := "w" }

/-- Counterexample to claim C5 as stated: when the uniqueness index for
the plan, worker and rank already holds an entry, AddToComputePlan fails
with a bad-request error, not with a conflict error. -/
theorem addToComputePlan_conflict_kind_counterexample :
    (AddToComputePlan dbC5 tupleC5 inpC5 "k5" true).2
      = Except.error
          { kind := ErrKind.badRequest,
            msg := "ComputePlanKey cp with worker w rank 1 already exists" }
    ∧ ErrKind.badRequest ≠ ErrKind.conflict :=
  ⟨rfl, by decide⟩

/-- Claim C5 as amended: with availability checking enabled, a non-empty
uniqueness-index lookup for the plan, worker and rank makes
AddToComputePlan fail with a bad-request error naming the plan, the
worker and the rank; with availability checking disabled the same call
performs no such lookup failure and succeeds. -/
theorem addToComputePlan_availability_badrequest
    (db : LedgerDB) (tuple : Aggregatetuple) (inp : InputAggregatetuple)
    (traintupleKey : String) (r : Int) (plan : ComputePlan) (ks : List String)
    (hr : inp.Rank ≠ "")
    (ha : Atoi inp.Rank = Except.ok r)
    (hp : GetComputePlan db inp.ComputePlanKey = Except.ok plan)
    (hk : GetIndexKeys
        (SaveComputePlan db inp.ComputePlanKey
          (AddTuple plan AssetType.AggregatetupleType traintupleKey
            tuple.Status tuple.Worker))
        "computePlan~computeplankey~worker~rank~key"
        ["computePlan", inp.ComputePlanKey, tuple.Worker, inp.Rank]
        = Except.ok ks)
    (hne : ks ≠ []) :
    (AddToComputePlan db tuple inp traintupleKey true).2
      = Except.error
          { kind := ErrKind.badRequest,
            msg := "ComputePlanKey " ++ inp.ComputePlanKey ++ " with worker "
              ++ tuple.Worker ++ " rank " ++ toString r ++ " already exists" }
    ∧ (AddToComputePlan db tuple inp traintupleKey false).2
      = Except.ok { tuple with Rank := r, ComputePlanKey := inp.ComputePlanKey } := by
  have hlen : 0 < ks.length := by
    cases ks with
    | nil => exact absurd rfl hne
    | cons a l => simp
  constructor
  · simp only [AddToComputePlan, if_neg hr, ha, hp, hk]
    simp [hlen]
  · simp only [AddToComputePlan, if_neg hr, ha, hp]
    simp

/-- Witness for claim C5 at a concrete input: the enabled check rejects
the duplicate rank entry as a bad request, the disabled check accepts. -/
theorem addToComputePlan_availability_badrequest_witness :
    (AddToComputePlan dbC5 tupleC5 inpC5 "k5" false).2
      = Except.ok { tupleC5 with Rank := 1, ComputePlanKey := "cp" } :=
  (addToComputePlan_availability_badrequest dbC5 tupleC5 inpC5 "k5" 1 planC5
    ["prev"] (by decide) rfl rfl rfl (by decide)).2

/-- Looking a key up right after an association-list write of that key
yields the written value. -/
theorem lookup_assocPut {α : Type} (l : List (String × α)) (k : String) (v : α) :
    (assocPut l k v).lookup k = some v := by
  unfold assocPut
  induction l with
  | nil => simp [List.lookup]
  | cons hd tl ih =>
    by_cases h : hd.1 = k
    · simpa [h] using ih
    · have hb : (hd.1 != k) = true := by simp [h]
      have hk : (k == hd.1) = false := by
        simp only [beq_eq_false_iff_ne, ne_eq]
        exact fun hkk => h hkk.symm
      simp only [List.filter_cons, hb, if_pos]
      simpa [List.lookup, hk] using ih

/-- Reading back a compute plan just saved under a key returns it. -/
theorem getComputePlan_saveComputePlan (db : LedgerDB) (k : String)
    (plan : ComputePlan) :
    GetComputePlan (SaveComputePlan db k plan) k = Except.ok plan := by
  unfold GetComputePlan SaveComputePlan
  simp [lookup_assocPut]

/-- Claim C10: on the availability-conflict path, AddToComputePlan has
already registered the tuple as a member of the compute plan and saved
the plan before the uniqueness lookup runs: the ledger state returned
along the error is exactly the state with the enlarged plan saved, and
reading the plan back from that state shows the new member. The
operation is therefore not atomic on error at this layer. -/
theorem addToComputePlan_saves_plan_before_availability_check
    (db : LedgerDB) (tuple : Aggregatetuple) (inp : InputAggregatetuple)
    (traintupleKey : String) (r : Int) (plan : ComputePlan) (ks : List String)
    (hr : inp.Rank ≠ "")
    (ha : Atoi inp.Rank = Except.ok r)
    (hp : GetComputePlan db inp.ComputePlanKey = Except.ok plan)
    (hk : GetIndexKeys
        (SaveComputePlan db inp.ComputePlanKey
          (AddTuple plan AssetType.AggregatetupleType traintupleKey
            tuple.Status tuple.Worker))
        "computePlan~computeplankey~worker~rank~key"
        ["computePlan", inp.ComputePlanKey, tuple.Worker, inp.Rank]
        = Except.ok ks)
    (hne : ks ≠ []) :
    (AddToComputePlan db tuple inp traintupleKey true).1
      = SaveComputePlan db inp.ComputePlanKey
          (AddTuple plan AssetType.AggregatetupleType traintupleKey
            tuple.Status tuple.Worker)
    ∧ (∃ e, (AddToComputePlan db tuple inp traintupleKey true).2 = Except.error e)
    ∧ GetComputePlan (AddToComputePlan db tuple inp traintupleKey true).1
        inp.ComputePlanKey
      = Except.ok (AddTuple plan AssetType.AggregatetupleType traintupleKey
          tuple.Status tuple.Worker) := by
  have hlen : 0 < ks.length := by
    cases ks with
    | nil => exact absurd rfl hne
    | cons a l => simp
  refine ⟨?_, ?_, ?_⟩
  · simp only [AddToComputePlan, if_neg hr, ha, hp, hk]
    simp [hlen]
  · refine ⟨{ kind := ErrKind.badRequest,
              msg := "ComputePlanKey " ++ inp.ComputePlanKey ++ " with worker "
                ++ tuple.Worker ++ " rank " ++ toString r ++ " already exists" }, ?_⟩
    simp only [AddToComputePlan, if_neg hr, ha, hp, hk]
    simp [hlen]
  · simp only [AddToComputePlan, if_neg hr, ha, hp, hk]
    simp only [Bool.not_true]
    rw [if_neg (by simp)]
    rw [if_pos hlen]
    exact getComputePlan_saveComputePlan db inp.ComputePlanKey _

/-- Witness for claim C10 at the concrete duplicate-rank input: the
returned ledger is the one with the enlarged plan already saved. -/
theorem addToComputePlan_saves_plan_witness :
    GetComputePlan (AddToComputePlan dbC5 tupleC5 inpC5 "k5" true).1 "cp"
      = Except.ok (AddTuple planC5 AssetType.AggregatetupleType "k5"
          tupleC5.Status tupleC5.Worker) :=
  (addToComputePlan_saves_plan_before_availability_check dbC5 tupleC5 inpC5 "k5" 1
    planC5 ["prev"] (by decide) rfl rfl rfl (by decide)).2.2

/-- Claim C2: child propagation for an aggregate child. Given the child
loads successfully, a parent status other than failed and done leaves the
child status and the ledger untouched; a done parent with an unready
child likewise; a failed parent commits failed to the child through
commitStatusUpdate and emits a tuple event for the child; a done parent
with a ready child commits todo through commitStatusUpdate and emits a
tuple event for the child. The returned status is the status of the
committed tuple. -/
theorem updateAggregatetupleChild_propagation
    (db : LedgerDB) (pk ck ps : String) (child : Aggregatetuple)
    (hget : GetAggregatetuple db ck = Except.ok child) :
    (ps ≠ StatusFailed → ps ≠ StatusDone →
      UpdateAggregatetupleChild db pk ck ps = (db, Except.ok child.Status))
    ∧ (ps = StatusDone → IsReady db child.InModelKeys pk = Except.ok false →
      UpdateAggregatetupleChild db pk ck ps = (db, Except.ok child.Status))
    ∧ (ps = StatusFailed →
      (commitStatusUpdate db ck child StatusFailed).2.isOk = true →
      UpdateAggregatetupleChild db pk ck ps
        = (AddTupleEvent (commitStatusUpdate db ck child StatusFailed).1 ck,
           (commitStatusUpdate db ck child StatusFailed).2.map (fun u => u.Status)))
    ∧ (ps = StatusDone → IsReady db child.InModelKeys pk = Except.ok true →
      (commitStatusUpdate db ck child StatusTodo).2.isOk = true →
      UpdateAggregatetupleChild db pk ck ps
        = (AddTupleEvent (commitStatusUpdate db ck child StatusTodo).1 ck,
           (commitStatusUpdate db ck child StatusTodo).2.map (fun u => u.Status))) := by
  refine ⟨?_, ?_, ?_, ?_⟩
  · intro h1 h2
    rw [UpdateAggregatetupleChild, hget]
    dsimp only
    rw [if_neg h1, if_neg h2]
    rfl
  · intro h1 hready
    subst h1
    rw [UpdateAggregatetupleChild, hget]
    dsimp only
    rw [if_neg (by decide : ¬(StatusDone = StatusFailed)), if_pos rfl, hready]
    rfl
  · intro h1 hok
    subst h1
    rcases hc : commitStatusUpdate db ck child StatusFailed with ⟨db2, r⟩
    rw [hc] at hok
    cases r with
    | error e => simp [Except.isOk, Except.toBool] at hok
    | ok t =>
      rw [UpdateAggregatetupleChild, hget]
      dsimp only
      rw [if_pos rfl]
      dsimp only
      rw [if_neg (by decide : ¬(StatusFailed = ""))]
      rw [hc]
      rfl
  · intro h1 hready hok
    subst h1
    rcases hc : commitStatusUpdate db ck child StatusTodo with ⟨db2, r⟩
    rw [hc] at hok
    cases r with
    | error e => simp [Except.isOk, Except.toBool] at hok
    | ok t =>
      rw [UpdateAggregatetupleChild, hget]
      dsimp only
      rw [if_neg (by decide : ¬(StatusDone = StatusFailed)), if_pos rfl, hready]
      dsimp only
      rw [if_neg (by decide : ¬(StatusTodo = ""))]
      rw [hc]
      rfl

/-- Child tuple used by the witness of claim C2: waiting, one parent. -/
def childC2w : Aggregatetuple :=
  { tuple0 with Status := StatusWaiting, Worker := "w", InModelKeys := ["p"] }

/-- Ledger used by the witness of claim C2. -/
def dbC2w : LedgerDB := { dbEmpty with aggregatetuples := [("c", childC2w)] }

/-- Witness for claim C2 at a concrete input: a failed parent commits
failed to the waiting child and emits the child event. -/
theorem updateAggregatetupleChild_propagation_witness :
    UpdateAggregatetupleChild dbC2w "p" "c" StatusFailed
      = (AddTupleEvent (commitStatusUpdate dbC2w "c" childC2w StatusFailed).1 "c",
         (commitStatusUpdate dbC2w "c" childC2w StatusFailed).2.map
           (fun u => u.Status)) :=
  (updateAggregatetupleChild_propagation dbC2w "p" "c" StatusFailed childC2w
    rfl).2.2.1 rfl rfl

/-- Claim C3: a successful fail action commits the failed status and
propagates it to the dependent test-kind and train-kind children exactly
when the tuple is not part of a compute plan; within a plan no
propagation is performed. -/
theorem logFailAggregate_propagation_iff_no_plan
    (db db2 : LedgerDB) (inp : InputLogFailTrain) (t : Aggregatetuple)
    (h : logFailAggregate db inp = (db2, Except.ok t)) :
    t.Status = StatusFailed
    ∧ (t.ComputePlanKey ≠ "" →
        db2.testPropagations = db.testPropagations
        ∧ db2.trainPropagations = db.trainPropagations)
    ∧ (t.ComputePlanKey = "" →
        db2.testPropagations = db.testPropagations ++ [(inp.Key, StatusFailed)]
        ∧ db2.trainPropagations = db.trainPropagations ++ [(inp.Key, StatusFailed)]) := by
  unfold logFailAggregate at h
  split at h
  · simp at h
  · rename_i agg hgetEq
    dsimp only at h
    split at h
    · simp at h
    · split at h
      · simp at h
      · rename_i db2x tx hcommit
        have hstat : tx.Status = StatusFailed :=
          commitStatusUpdate_ok_status (by decide) hcommit
        have hprops := commitStatusUpdate_preserves_propagations hcommit
        split at h
        · rename_i hcpk
          simp only [Prod.mk.injEq, Except.ok.injEq] at h
          obtain ⟨rfl, rfl⟩ := h
          refine ⟨hstat, fun _ => hprops, fun hc => absurd hc hcpk⟩
        · rename_i hcpk
          rw [not_not] at hcpk
          simp only [Prod.mk.injEq, Except.ok.injEq] at h
          obtain ⟨rfl, rfl⟩ := h
          refine ⟨hstat, fun hc => absurd hcpk hc, fun _ => ?_⟩
          unfold UpdateTraintupleChildren UpdateTesttupleChildren
          rw [hstat]
          exact ⟨by rw [hprops.1], by rw [hprops.2]⟩

/-- Tuple used by the witness of claim C3: doing, no compute plan. -/
def tupleC3w : Aggregatetuple :=
  { tuple0 with Status := StatusDoing, Worker := "w", Log := "x" }

/-- Ledger used by the witness of claim C3; the request issuer is the
assigned worker. -/
def dbC3w : LedgerDB :=
  { dbEmpty with txCreator := "w", aggregatetuples := [("f", tupleC3w)] }

/-- Fail request used by the witness of claim C3. -/
def inpC3w : InputLogFailTrain := { Key := "f", Log := "boom" }

/-- Witness for claim C3 at a concrete input: failing a planless doing
tuple appends one test and one train propagation of the failed status. -/
theorem logFailAggregate_propagation_witness :
    (logFailAggregate dbC3w inpC3w).1.testPropagations
        = dbC3w.testPropagations ++ [("f", StatusFailed)]
    ∧ (logFailAggregate dbC3w inpC3w).1.trainPropagations
        = dbC3w.trainPropagations ++ [("f", StatusFailed)] :=
  (logFailAggregate_propagation_iff_no_plan dbC3w (logFailAggregate dbC3w inpC3w).1
    inpC3w { tupleC3w with Log := "xboom", Status := StatusFailed } rfl).2.2 rfl
